import Mathlib

/-!
# omniwitness: the log-configuration compiler `LogConfig.AsLogMap`

A shallow embedding of `src/omniwitness/configs.go`.

* Go strings are Lean `String`s; `[]byte(s)` is the UTF-8 byte sequence of `s`.
* A Go `map[string]T` is a finite map `Finmap` with `String` keys; a nil map is `none`.
* A Go `error` is observed through its message only, so it is its message; a nil error is `none`.
* The functions that the compiler imports from other packages (`i_note.NewVerifier`,
  `logfmt.ID`, `rfc6962.DefaultHasher`, and the `%+v` rendering of a descriptor) are
  parameters, collected in `Externals`.
-/

namespace omniwitness

/-! ## Data model -/

/-- LogInfo contains the configuration options for a log: its identifier, hashing
strategy, and public key (`configs.go`, type `LogInfo`). -/
structure LogInfo where
  Origin : String
  HashStrategy : String
  PublicKey : String
  PublicKeyType : String
  UseCompact : Bool
deriving DecidableEq

/-- LogConfig contains a list of LogInfo (`configs.go`, type `LogConfig`). -/
structure LogConfig where
  Logs : List LogInfo
deriving DecidableEq

/-- Modelled from the spec: the runtime descriptor type `witness.LogInfo`, declared in
`internal/witness` and not part of the sources at hand. Its four fields are the ones the
composite literal in `AsLogMap` fills in: the signature verifier, the origin string, the
hasher and the compact-range flag. `V` is the type of verifiers (`note.Verifier`) and `H`
the type of hashers (`merkle.LogHasher`). -/
structure witness.LogInfo (V H : Type) where
  SigV : V
  Origin : String
  Hasher : H
  UseCompact : Bool
deriving DecidableEq

/-- The Go type `map[string]witness.LogInfo`. -/
abbrev LogMap (V H : Type) : Type := Finmap (fun _ : String => witness.LogInfo V H)

/-- The number of entries of a Go map, `len(m)`. -/
def LogMap.len {V H : Type} (m : LogMap V H) : Nat := m.keys.card

/-- The imported functions and values `AsLogMap` calls.

* `NewVerifier` is `i_note.NewVerifier`: it returns a verifier and an error, the error
  being `none` for Go's `nil` and `some msg` for an error whose message is `msg`.
* `ID` is `logfmt.ID`.
* `DefaultHasher` is `rfc6962.DefaultHasher`.
* `dump` is the text `fmt` prints for a `witness.LogInfo` under the verb `%+v`.

Both are functions here: the verifiers obtained for equal arguments are equal, and the
dump of a descriptor is determined by the descriptor. -/
structure Externals (V H : Type) where
  NewVerifier : String → String → V × Option String
  ID : String → List UInt8 → String
  DefaultHasher : H
  dump : witness.LogInfo V H → String

/-- The Go conversion `[]byte(s)`: the UTF-8 bytes of the string. -/
def bytes (s : String) : List UInt8 := s.toUTF8.data.toList

/-- Two lower-case hexadecimal digits for one byte. -/
def hexByte (b : Nat) : List Char := [Nat.digitChar (b / 16), Nat.digitChar (b % 16)]

/-- The text `fmt` prints for a string under the verb `%x`: every byte as two lower-case
hexadecimal digits. -/
def fmtHex (s : String) : String := String.mk ((bytes s).flatMap fun b => hexByte b.toNat)

/-- The message of the error returned at `configs.go:63`. -/
def errNonDefaultHash : String := "can't handle non-default hashing strategies"

/-- The message of the error returned at `configs.go:67`,
`fmt.Errorf("failed to create signature verifier: %v", err)`. -/
def errVerifier (err : String) : String := "failed to create signature verifier: " ++ err

/-- The message of the error returned at `configs.go:77`,
`fmt.Errorf("colliding log configs found for key %x: %+v and %+v", logID, oldLog, logInfo)`. -/
def errColliding {V H : Type} (x : Externals V H) (logID : String)
    (oldLog logInfo : witness.LogInfo V H) : String :=
  "colliding log configs found for key " ++ fmtHex logID ++ ": " ++ x.dump oldLog ++ " and "
    ++ x.dump logInfo

/-! ## The compiler -/

/-- The body of the `for _, log := range config.Logs` loop of `AsLogMap`, run on the
entries still to be visited and the map built so far. The result is the pair the Go
function returns: the map (`none` is `nil`) and the error (`none` is `nil`). -/
def AsLogMap.loop {V H : Type} (x : Externals V H) (h : H) :
    List LogInfo → LogMap V H → Option (LogMap V H) × Option String
  | [], logMap => (some logMap, none)
  | log :: rest, logMap =>
    if log.HashStrategy ≠ "default" then
      (none, some errNonDefaultHash)
    else
      match x.NewVerifier log.PublicKeyType log.PublicKey with
      | (_, some err) => (none, some (errVerifier err))
      | (logV, none) =>
        let logInfo : witness.LogInfo V H :=
          witness.LogInfo.mk logV log.Origin h log.UseCompact
        let logID := x.ID log.Origin (bytes log.PublicKey)
        match logMap.lookup logID with
        | some oldLog => (none, some (errColliding x logID oldLog logInfo))
        | none => AsLogMap.loop x h rest (logMap.insert logID logInfo)

/-- AsLogMap loads the log configuration information into a map, keyed by log ID
(`configs.go:57`). -/
def AsLogMap {V H : Type} (x : Externals V H) (config : LogConfig) :
    Option (LogMap V H) × Option String :=
  let logMap : LogMap V H := ∅
  let h := x.DefaultHasher
  AsLogMap.loop x h config.Logs logMap

/-! ## Vocabulary of the specification -/

/-- The canonical identifier of an entry, `logID(e.Origin, bytes(e.PublicKey))`. -/
def logIDOf {V H : Type} (x : Externals V H) (e : LogInfo) : String :=
  x.ID e.Origin (bytes e.PublicKey)

/-- The verifier constructor accepts the key of the entry: it returns a nil error. -/
def Accepted {V H : Type} (x : Externals V H) (e : LogInfo) : Prop :=
  (x.NewVerifier e.PublicKeyType e.PublicKey).2 = none

instance {V H : Type} (x : Externals V H) (e : LogInfo) : Decidable (Accepted x e) :=
  inferInstanceAs (Decidable (_ = none))

/-- The descriptor the specification assigns to an entry: the verifier the constructor
returns for its key, its origin, the default hasher and its compact-range flag. -/
def descriptorOf {V H : Type} (x : Externals V H) (e : LogInfo) : witness.LogInfo V H :=
  witness.LogInfo.mk (x.NewVerifier e.PublicKeyType e.PublicKey).1 e.Origin x.DefaultHasher
    e.UseCompact

/-- The message is the one of a collision error: it begins with the fixed text of
`configs.go:77`. -/
def IsCollisionMsg (msg : String) : Prop :=
  "colliding log configs found for key ".data <+: msg.data

instance (msg : String) : Decidable (IsCollisionMsg msg) :=
  inferInstanceAs (Decidable (_ <+: _))

/-- The entry passes the two checks that look at the entry alone: its hashing strategy is
`default` and the verifier constructor accepts its key. -/
def Valid {V H : Type} (x : Externals V H) (e : LogInfo) : Prop :=
  e.HashStrategy = "default" ∧ Accepted x e

instance {V H : Type} (x : Externals V H) (e : LogInfo) : Decidable (Valid x e) :=
  inferInstanceAs (Decidable (_ ∧ _))

/-- The map obtained from `m` by storing, for every entry of the list in turn, its
descriptor under its identifier. -/
def insertAll {V H : Type} (x : Externals V H) (L : List LogInfo) (m : LogMap V H) :
    LogMap V H :=
  L.foldl (fun acc e => acc.insert (logIDOf x e) (descriptorOf x e)) m

/-! ## A concrete environment, for evaluating the compiler on examples -/

/-- A small verifier constructor: an empty key is malformed, a key type other than
`ed25519` and `ecdsa` is unknown, every other key is its own verifier. -/
def exNewVerifier (keyType key : String) : String × Option String :=
  if key = "" then ("", some "malformed verifier id")
  else if keyType = "ed25519" ∨ keyType = "ecdsa" then (key, none)
  else ("", some ("unknown key type " ++ keyType))

/-- A small identifier function: the origin, a separator and the key bytes
in hexadecimal. -/
def exID (origin : String) (key : List UInt8) : String :=
  origin ++ "#" ++ String.mk (key.flatMap fun b => hexByte b.toNat)

/-- A small descriptor dump. -/
def exDump (d : witness.LogInfo String String) : String :=
  "SigV:" ++ d.SigV ++ " Origin:" ++ d.Origin ++ " Hasher:" ++ d.Hasher ++ " UseCompact:"
    ++ (if d.UseCompact then "true" else "false")

/-- The example environment. -/
def exEnv : Externals String String :=
  Externals.mk exNewVerifier exID "rfc6962-sha256" exDump

/-- The entry of the single-valid-log scenario. -/
def exLog : LogInfo :=
  LogInfo.mk "example.com/log" "default" "example.com/log+abcd1234+AQID" "ed25519" false

/-- A second valid entry, for a different log. -/
def exLog2 : LogInfo :=
  LogInfo.mk "example.org/other" "default" "example.org/other+00ff00ff+BAUG" "ecdsa" true

/-- The entry `exLog` with the compact-range flag set. -/
def exLogCompact : LogInfo :=
  LogInfo.mk "example.com/log" "default" "example.com/log+abcd1234+AQID" "ed25519" true

/-- The entry `exLog` with the hashing strategy `sha512`. -/
def exLogSha512 : LogInfo :=
  LogInfo.mk "example.com/log" "sha512" "example.com/log+abcd1234+AQID" "ed25519" false

/-- The entry `exLog` with the hashing strategy `sha3`. -/
def exLogSha3 : LogInfo :=
  LogInfo.mk "example.com/log" "sha3" "example.com/log+abcd1234+AQID" "ed25519" false

/-- The entry of the bad-key-material scenario: an empty public key. -/
def exLogBadKey : LogInfo :=
  LogInfo.mk "example.net/bad" "default" "" "ed25519" false

/-- A third entry with the hashing strategy `sha512`, for a log of its own. -/
def exLog3Sha512 : LogInfo :=
  LogInfo.mk "example.io/third" "sha512" "example.io/third+12345678+BwgJ" "ed25519" false

/-- An entry with both the hashing strategy `sha512` and an empty public key. -/
def exLogSha512BadKey : LogInfo :=
  LogInfo.mk "example.net/bad" "sha512" "" "ed25519" false

/-! ## One step of the loop -/

theorem loop_nil {V H : Type} (x : Externals V H) (h : H) (m : LogMap V H) :
    AsLogMap.loop x h [] m = (some m, none) := rfl

theorem loop_cons_hash {V H : Type} (x : Externals V H) (h : H) (e : LogInfo)
    (rest : List LogInfo) (m : LogMap V H) (hs : e.HashStrategy ≠ "default") :
    AsLogMap.loop x h (e :: rest) m = (none, some errNonDefaultHash) := by
  simp [AsLogMap.loop, hs]

theorem loop_cons_verifier {V H : Type} (x : Externals V H) (h : H) (e : LogInfo)
    (rest : List LogInfo) (m : LogMap V H) (hs : e.HashStrategy = "default") (err : String)
    (hv : (x.NewVerifier e.PublicKeyType e.PublicKey).2 = some err) :
    AsLogMap.loop x h (e :: rest) m = (none, some (errVerifier err)) := by
  rcases hnv : x.NewVerifier e.PublicKeyType e.PublicKey with ⟨v, o⟩
  rw [hnv] at hv
  simp only at hv
  subst hv
  simp [AsLogMap.loop, hs, hnv]

theorem loop_cons_collide {V H : Type} (x : Externals V H) (e : LogInfo)
    (rest : List LogInfo) (m : LogMap V H) (hs : e.HashStrategy = "default")
    (hv : Accepted x e) (old : witness.LogInfo V H)
    (hl : m.lookup (logIDOf x e) = some old) :
    AsLogMap.loop x x.DefaultHasher (e :: rest) m
      = (none, some (errColliding x (logIDOf x e) old (descriptorOf x e))) := by
  unfold Accepted at hv
  unfold logIDOf at hl
  rcases hnv : x.NewVerifier e.PublicKeyType e.PublicKey with ⟨v, o⟩
  rw [hnv] at hv
  simp only at hv
  subst hv
  simp [AsLogMap.loop, hs, hnv, hl, descriptorOf, logIDOf]

theorem loop_cons_insert {V H : Type} (x : Externals V H) (e : LogInfo)
    (rest : List LogInfo) (m : LogMap V H) (hs : e.HashStrategy = "default")
    (hv : Accepted x e) (hl : m.lookup (logIDOf x e) = none) :
    AsLogMap.loop x x.DefaultHasher (e :: rest) m
      = AsLogMap.loop x x.DefaultHasher rest (m.insert (logIDOf x e) (descriptorOf x e)) := by
  unfold Accepted at hv
  unfold logIDOf at hl
  rcases hnv : x.NewVerifier e.PublicKeyType e.PublicKey with ⟨v, o⟩
  rw [hnv] at hv
  simp only at hv
  subst hv
  simp [AsLogMap.loop, hs, hnv, hl, descriptorOf, logIDOf]

/-! ## The loop as a whole -/

theorem loop_cases {V H : Type} (x : Externals V H) (L : List LogInfo) :
    ∀ m : LogMap V H, (∃ m', AsLogMap.loop x x.DefaultHasher L m = (some m', none)) ∨
      (∃ err, AsLogMap.loop x x.DefaultHasher L m = (none, some err)) := by
  induction L with
  | nil => intro m; exact Or.inl ⟨m, rfl⟩
  | cons e rest ih =>
    intro m
    by_cases hs : e.HashStrategy = "default"
    · cases hv : (x.NewVerifier e.PublicKeyType e.PublicKey).2 with
      | some err => exact Or.inr ⟨_, loop_cons_verifier x _ e rest m hs err hv⟩
      | none =>
        cases hl : m.lookup (logIDOf x e) with
        | some old => exact Or.inr ⟨_, loop_cons_collide x e rest m hs hv old hl⟩
        | none =>
          rw [loop_cons_insert x e rest m hs hv hl]
          exact ih _
    · exact Or.inr ⟨_, loop_cons_hash x _ e rest m hs⟩

theorem loop_append_ok {V H : Type} (x : Externals V H) (pre post : List LogInfo) :
    ∀ m m' : LogMap V H, AsLogMap.loop x x.DefaultHasher pre m = (some m', none) →
      AsLogMap.loop x x.DefaultHasher (pre ++ post) m
        = AsLogMap.loop x x.DefaultHasher post m' := by
  induction pre with
  | nil =>
    intro m m' h
    rw [loop_nil] at h
    simp only [Prod.mk.injEq, Option.some.injEq, and_true] at h
    subst h
    rfl
  | cons e rest ih =>
    intro m m' h
    by_cases hs : e.HashStrategy = "default"
    · cases hv : (x.NewVerifier e.PublicKeyType e.PublicKey).2 with
      | some err =>
        rw [loop_cons_verifier x _ e rest m hs err hv] at h
        simp at h
      | none =>
        cases hl : m.lookup (logIDOf x e) with
        | some old =>
          rw [loop_cons_collide x e rest m hs hv old hl] at h
          simp at h
        | none =>
          rw [loop_cons_insert x e rest m hs hv hl] at h
          rw [List.cons_append, loop_cons_insert x e (rest ++ post) m hs hv hl]
          exact ih _ _ h
    · rw [loop_cons_hash x _ e rest m hs] at h
      simp at h

theorem loop_append_err {V H : Type} (x : Externals V H) (pre post : List LogInfo) :
    ∀ (m : LogMap V H) (err : String),
      AsLogMap.loop x x.DefaultHasher pre m = (none, some err) →
      AsLogMap.loop x x.DefaultHasher (pre ++ post) m = (none, some err) := by
  induction pre with
  | nil =>
    intro m err h
    rw [loop_nil] at h
    simp at h
  | cons e rest ih =>
    intro m err h
    by_cases hs : e.HashStrategy = "default"
    · cases hv : (x.NewVerifier e.PublicKeyType e.PublicKey).2 with
      | some err' =>
        rw [loop_cons_verifier x _ e rest m hs err' hv] at h
        rw [List.cons_append, loop_cons_verifier x _ e (rest ++ post) m hs err' hv]
        exact h
      | none =>
        cases hl : m.lookup (logIDOf x e) with
        | some old =>
          rw [loop_cons_collide x e rest m hs hv old hl] at h
          rw [List.cons_append, loop_cons_collide x e (rest ++ post) m hs hv old hl]
          exact h
        | none =>
          rw [loop_cons_insert x e rest m hs hv hl] at h
          rw [List.cons_append, loop_cons_insert x e (rest ++ post) m hs hv hl]
          exact ih _ _ h
    · rw [loop_cons_hash x _ e rest m hs] at h
      rw [List.cons_append, loop_cons_hash x _ e (rest ++ post) m hs]
      exact h

theorem insertAll_nil {V H : Type} (x : Externals V H) (m : LogMap V H) :
    insertAll x [] m = m := rfl

theorem insertAll_cons {V H : Type} (x : Externals V H) (e : LogInfo) (L : List LogInfo)
    (m : LogMap V H) :
    insertAll x (e :: L) m = insertAll x L (m.insert (logIDOf x e) (descriptorOf x e)) := rfl

/-- The loop succeeds exactly when every entry is valid, the identifiers of the entries
are pairwise distinct and none of them is a key of the starting map; the map returned is
then the starting map with every descriptor stored under its identifier. -/
theorem loop_ok_iff {V H : Type} (x : Externals V H) (L : List LogInfo) :
    ∀ m m' : LogMap V H, AsLogMap.loop x x.DefaultHasher L m = (some m', none) ↔
      ((∀ e ∈ L, Valid x e) ∧ (L.map (logIDOf x)).Nodup ∧ (∀ e ∈ L, logIDOf x e ∉ m) ∧
        m' = insertAll x L m) := by
  induction L with
  | nil =>
    intro m m'
    rw [loop_nil, insertAll_nil]
    simp [eq_comm]
  | cons e rest ih =>
    intro m m'
    by_cases hs : e.HashStrategy = "default"
    · cases hv : (x.NewVerifier e.PublicKeyType e.PublicKey).2 with
      | some err =>
        rw [loop_cons_verifier x _ e rest m hs err hv]
        simp [Valid, Accepted, hv]
      | none =>
        cases hl : m.lookup (logIDOf x e) with
        | some old =>
          rw [loop_cons_collide x e rest m hs hv old hl]
          have hmem : logIDOf x e ∈ m := Finmap.mem_of_lookup_eq_some hl
          simp [hmem]
        | none =>
          rw [loop_cons_insert x e rest m hs hv hl, ih, insertAll_cons]
          have hnm : logIDOf x e ∉ m := Finmap.lookup_eq_none.mp hl
          have hval : Valid x e := ⟨hs, hv⟩
          simp only [List.mem_cons, forall_eq_or_imp, List.map_cons, List.nodup_cons,
            Finmap.mem_insert, not_or, List.mem_map, not_exists, not_and]
          constructor
          · rintro ⟨h1, h2, h3, h4⟩
            refine ⟨⟨hval, h1⟩, ⟨?_, h2⟩, ⟨hnm, fun a ha => (h3 a ha).2⟩, h4⟩
            intro a ha heq
            exact (h3 a ha).1 heq
          · rintro ⟨⟨_, h1⟩, ⟨h2, h2'⟩, ⟨_, h3⟩, h4⟩
            exact ⟨h1, h2', fun a ha => ⟨fun heq => h2 a ha heq, h3 a ha⟩, h4⟩
    · rw [loop_cons_hash x _ e rest m hs]
      simp [Valid, hs]

/-! ## The map built by the loop -/

theorem mem_insertAll {V H : Type} (x : Externals V H) (L : List LogInfo) :
    ∀ (m : LogMap V H) (k : String),
      k ∈ insertAll x L m ↔ k ∈ m ∨ ∃ e ∈ L, logIDOf x e = k := by
  induction L with
  | nil => intro m k; simp [insertAll_nil]
  | cons e rest ih =>
    intro m k
    rw [insertAll_cons, ih, Finmap.mem_insert]
    simp only [List.mem_cons, exists_eq_or_imp]
    constructor
    · rintro ((h | h) | h)
      · exact Or.inr (Or.inl h.symm)
      · exact Or.inl h
      · exact Or.inr (Or.inr h)
    · rintro (h | h | h)
      · exact Or.inl (Or.inr h)
      · exact Or.inl (Or.inl h.symm)
      · exact Or.inr h

theorem lookup_insertAll {V H : Type} (x : Externals V H) (L : List LogInfo) :
    ∀ (m : LogMap V H) (k : String) (d : witness.LogInfo V H),
      (L.map (logIDOf x)).Nodup →
      ((insertAll x L m).lookup k = some d ↔
        (∃ e ∈ L, logIDOf x e = k ∧ descriptorOf x e = d) ∨
          ((∀ e ∈ L, logIDOf x e ≠ k) ∧ m.lookup k = some d)) := by
  induction L with
  | nil => intro m k d _; simp [insertAll_nil]
  | cons e rest ih =>
    intro m k d hnd
    rw [List.map_cons, List.nodup_cons] at hnd
    rw [insertAll_cons, ih _ k d hnd.2]
    simp only [List.mem_cons, exists_eq_or_imp, forall_eq_or_imp]
    by_cases hk : k = logIDOf x e
    · subst hk
      rw [Finmap.lookup_insert]
      have hne : ∀ a ∈ rest, logIDOf x a ≠ logIDOf x e := by
        intro a ha heq
        exact hnd.1 (List.mem_map.mpr ⟨a, ha, heq⟩)
      constructor
      · rintro (⟨a, ha, heq, _⟩ | ⟨_, h⟩)
        · exact absurd heq (hne a ha)
        · exact Or.inl (Or.inl ⟨rfl, Option.some.inj h⟩)
      · rintro ((⟨_, h⟩ | ⟨a, ha, heq, _⟩) | ⟨⟨h, _⟩, _⟩)
        · exact Or.inr ⟨hne, congrArg some h⟩
        · exact absurd heq (hne a ha)
        · exact absurd rfl h
    · rw [Finmap.lookup_insert_of_ne _ hk]
      have hk' : logIDOf x e ≠ k := fun h => hk h.symm
      constructor
      · rintro (h | ⟨h1, h2⟩)
        · exact Or.inl (Or.inr h)
        · exact Or.inr ⟨⟨hk', h1⟩, h2⟩
      · rintro ((⟨h, _⟩ | h) | ⟨⟨_, h1⟩, h2⟩)
        · exact absurd h hk'
        · exact Or.inl h
        · exact Or.inr ⟨h1, h2⟩

theorem keys_insert_eq {V H : Type} (m : LogMap V H) (k : String) (d : witness.LogInfo V H) :
    (m.insert k d).keys = insert k m.keys := by
  ext a
  rw [Finmap.mem_keys, Finmap.mem_insert, Finset.mem_insert, Finmap.mem_keys]

theorem len_insertAll {V H : Type} (x : Externals V H) (L : List LogInfo) :
    ∀ m : LogMap V H, (L.map (logIDOf x)).Nodup → (∀ e ∈ L, logIDOf x e ∉ m) →
      (insertAll x L m).len = m.len + L.length := by
  induction L with
  | nil => intro m _ _; simp [insertAll_nil]
  | cons e rest ih =>
    intro m hnd hdis
    rw [List.map_cons, List.nodup_cons] at hnd
    have hnm : logIDOf x e ∉ m := hdis e (List.mem_cons_self _ _)
    rw [insertAll_cons, ih _ hnd.2]
    · unfold LogMap.len
      rw [keys_insert_eq, Finset.card_insert_of_not_mem (by rwa [Finmap.mem_keys])]
      simp only [List.length_cons]
      omega
    · intro a ha
      rw [Finmap.mem_insert, not_or]
      refine ⟨?_, hdis a (List.mem_cons_of_mem _ ha)⟩
      intro heq
      exact hnd.1 (List.mem_map.mpr ⟨a, ha, heq⟩)

/-- A failing run stops at one entry: the entries before it were all stored, and that
entry failed one of the three checks, in the order the loop body makes them. -/
theorem loop_err_split {V H : Type} (x : Externals V H) (L : List LogInfo) :
    ∀ (m0 : LogMap V H) (msg : String),
      AsLogMap.loop x x.DefaultHasher L m0 = (none, some msg) →
      ∃ pre e post m, L = pre ++ e :: post ∧
        AsLogMap.loop x x.DefaultHasher pre m0 = (some m, none) ∧
        ((e.HashStrategy ≠ "default" ∧ msg = errNonDefaultHash) ∨
         (e.HashStrategy = "default" ∧
            ∃ err, (x.NewVerifier e.PublicKeyType e.PublicKey).2 = some err ∧
              msg = errVerifier err) ∨
         (Valid x e ∧ ∃ old, m.lookup (logIDOf x e) = some old ∧
              msg = errColliding x (logIDOf x e) old (descriptorOf x e))) := by
  induction L with
  | nil =>
    intro m0 msg h
    rw [loop_nil] at h
    simp at h
  | cons e rest ih =>
    intro m0 msg h
    by_cases hs : e.HashStrategy = "default"
    · cases hv : (x.NewVerifier e.PublicKeyType e.PublicKey).2 with
      | some err =>
        rw [loop_cons_verifier x _ e rest m0 hs err hv] at h
        simp only [Prod.mk.injEq, Option.some.injEq, true_and] at h
        exact ⟨[], e, rest, m0, rfl, rfl, Or.inr (Or.inl ⟨hs, err, hv, h.symm⟩)⟩
      | none =>
        cases hl : m0.lookup (logIDOf x e) with
        | some old =>
          rw [loop_cons_collide x e rest m0 hs hv old hl] at h
          simp only [Prod.mk.injEq, Option.some.injEq, true_and] at h
          exact ⟨[], e, rest, m0, rfl, rfl, Or.inr (Or.inr ⟨⟨hs, hv⟩, old, hl, h.symm⟩)⟩
        | none =>
          rw [loop_cons_insert x e rest m0 hs hv hl] at h
          obtain ⟨pre, e', post, m, hL, hpre, hcase⟩ := ih _ _ h
          refine ⟨e :: pre, e', post, m, by rw [hL]; rfl, ?_, hcase⟩
          rw [loop_cons_insert x e pre m0 hs hv hl]
          exact hpre
    · rw [loop_cons_hash x _ e rest m0 hs] at h
      simp only [Prod.mk.injEq, Option.some.injEq, true_and] at h
      exact ⟨[], e, rest, m0, rfl, rfl, Or.inl ⟨hs, h.symm⟩⟩

theorem not_collision_errNonDefaultHash : ¬ IsCollisionMsg errNonDefaultHash := by decide

theorem not_collision_errVerifier (err : String) : ¬ IsCollisionMsg (errVerifier err) := by
  unfold IsCollisionMsg errVerifier
  rintro ⟨t, ht⟩
  rw [String.data_append] at ht
  have h0 := congrArg List.head? ht
  have h1 : ("colliding log configs found for key ".data ++ t).head? = some 'c' := rfl
  have h2 : ("failed to create signature verifier: ".data ++ err.data).head? = some 'f' := rfl
  rw [h1, h2] at h0
  exact absurd h0 (by decide)

theorem collision_errColliding {V H : Type} (x : Externals V H) (logID : String)
    (old new : witness.LogInfo V H) : IsCollisionMsg (errColliding x logID old new) := by
  unfold IsCollisionMsg errColliding
  simp only [String.data_append, List.append_assoc]
  exact List.prefix_append _ _

/-! ## The claims -/

theorem len_empty {V H : Type} : (∅ : LogMap V H).len = 0 := by
  unfold LogMap.len
  rw [Finmap.keys_empty]
  rfl

/-- The compiler succeeds on a list of valid entries with pairwise distinct identifiers. -/
theorem AsLogMap_ok_of_valid {V H : Type} (x : Externals V H) (L : List LogInfo)
    (hV : ∀ e ∈ L, Valid x e) (hD : (L.map (logIDOf x)).Nodup) :
    AsLogMap x ⟨L⟩ = (some (insertAll x L ∅), none) := by
  unfold AsLogMap
  exact (loop_ok_iff x L ∅ _).mpr ⟨hV, hD, fun _ _ => Finmap.not_mem_empty, rfl⟩

/-- A successful run was made on valid entries with pairwise distinct identifiers, and
returns the map of their descriptors. -/
theorem AsLogMap_ok_inv {V H : Type} (x : Externals V H) (L : List LogInfo) (m : LogMap V H)
    (h : AsLogMap x ⟨L⟩ = (some m, none)) :
    (∀ e ∈ L, Valid x e) ∧ (L.map (logIDOf x)).Nodup ∧ m = insertAll x L ∅ := by
  unfold AsLogMap at h
  obtain ⟨h1, h2, _, h4⟩ := (loop_ok_iff x L ∅ m).mp h
  exact ⟨h1, h2, h4⟩

/-- C1 (totality on valid input). For every LogConfig whose entries all have HashStrategy
equal to "default", whose keys are all accepted by the verifier constructor (it returns a
nil error) and whose identifiers `ID(Origin, []byte(PublicKey))` are pairwise distinct
across positions, AsLogMap returns a nil error and a map with exactly `len(Logs)`
entries. -/
theorem AsLogMap_total {V H : Type} (x : Externals V H) (config : LogConfig)
    (hH : ∀ e ∈ config.Logs, e.HashStrategy = "default")
    (hK : ∀ e ∈ config.Logs, (x.NewVerifier e.PublicKeyType e.PublicKey).2 = none)
    (hD : (config.Logs.map fun e => x.ID e.Origin (bytes e.PublicKey)).Nodup) :
    ∃ m, AsLogMap x config = (some m, none) ∧ m.len = config.Logs.length := by
  refine ⟨insertAll x config.Logs ∅, ?_, ?_⟩
  · exact AsLogMap_ok_of_valid x config.Logs (fun e he => ⟨hH e he, hK e he⟩) hD
  · rw [len_insertAll x config.Logs ∅ hD (fun _ _ => Finmap.not_mem_empty), len_empty]
    omega

/-- The two-distinct-logs scenario: both entries are stored. -/
theorem AsLogMap_total_witness :
    ∃ m, AsLogMap exEnv ⟨[exLog, exLog2]⟩ = (some m, none) ∧ m.len = 2 :=
  AsLogMap_total exEnv ⟨[exLog, exLog2]⟩ (by decide) (by decide) (by decide)

/-- A list with the same identifier at two distinct positions has a repeated identifier. -/
theorem not_nodup_of_same_id {V H : Type} (x : Externals V H) (L : List LogInfo) (i j : Nat)
    (e1 e2 : LogInfo) (hij : i < j) (h1 : L[i]? = some e1) (h2 : L[j]? = some e2)
    (hid : logIDOf x e1 = logIDOf x e2) : ¬ (L.map (logIDOf x)).Nodup := by
  intro hnd
  have hj : j < (L.map (logIDOf x)).length := by
    rw [List.length_map]
    exact (List.getElem?_eq_some.mp h2).1
  refine List.nodup_iff_getElem?_ne_getElem?.mp hnd i j hij hj ?_
  rw [List.getElem?_map, List.getElem?_map, h1, h2]
  simp [hid]

/-- A run on valid entries that fails, fails with a collision error. -/
theorem loop_valid_err_collision {V H : Type} (x : Externals V H) (L : List LogInfo)
    (m0 : LogMap V H) (msg : String) (hV : ∀ e ∈ L, Valid x e)
    (h : AsLogMap.loop x x.DefaultHasher L m0 = (none, some msg)) : IsCollisionMsg msg := by
  obtain ⟨pre, e, post, m, hL, _, hcase⟩ := loop_err_split x L m0 msg h
  have he : Valid x e := hV e (by rw [hL]; simp)
  rcases hcase with ⟨hs, _⟩ | ⟨_, err, hv, _⟩ | ⟨_, old, _, hmsg⟩
  · exact absurd he.1 hs
  · have := he.2
    unfold Accepted at this
    rw [hv] at this
    simp at this
  · rw [hmsg]
    exact collision_errColliding x _ _ _

/-- C2, counterexample. In the list `[exLog, exLog3Sha512, exLogCompact]` the entries at
positions 0 and 2 derive the same identifier, yet AsLogMap stops at position 1 with the
unsupported-strategy error, which is not the collision error. -/
theorem collision_not_reported_behind_sha512 :
    [exLog, exLog3Sha512, exLogCompact][0]? = some exLog ∧
    [exLog, exLog3Sha512, exLogCompact][2]? = some exLogCompact ∧
    logIDOf exEnv exLog = logIDOf exEnv exLogCompact ∧
    AsLogMap exEnv ⟨[exLog, exLog3Sha512, exLogCompact]⟩
      = (none, some "can't handle non-default hashing strategies") ∧
    ¬ IsCollisionMsg "can't handle non-default hashing strategies" := by
  decide

/-- C2, as amended (collision detection). For every LogConfig in which two entries at
distinct positions `i < j` derive the same identifier, AsLogMap fails: it returns a nil map
and an error. When moreover every entry at a position up to `j` has HashStrategy "default"
and a key the verifier constructor accepts, the error is the collision error, whatever
the positions `i` and `j` are and whatever the entries after position `j` are. -/
theorem AsLogMap_collision_detected {V H : Type} (x : Externals V H) (config : LogConfig)
    (i j : Nat) (e1 e2 : LogInfo) (hij : i < j)
    (h1 : config.Logs[i]? = some e1) (h2 : config.Logs[j]? = some e2)
    (hid : x.ID e1.Origin (bytes e1.PublicKey) = x.ID e2.Origin (bytes e2.PublicKey)) :
    (∃ err, AsLogMap x config = (none, some err)) ∧
    ((∀ e ∈ config.Logs.take (j + 1),
        e.HashStrategy = "default" ∧
          (x.NewVerifier e.PublicKeyType e.PublicKey).2 = none) →
      ∃ err, AsLogMap x config = (none, some err) ∧ IsCollisionMsg err) := by
  have hnd : ¬ (config.Logs.map (logIDOf x)).Nodup :=
    not_nodup_of_same_id x config.Logs i j e1 e2 hij h1 h2 hid
  constructor
  · rcases loop_cases x config.Logs ∅ with ⟨m, hm⟩ | ⟨err, herr⟩
    · exact absurd ((loop_ok_iff x config.Logs ∅ m).mp hm).2.1 hnd
    · exact ⟨err, herr⟩
  · intro hV
    have hjlt : j < config.Logs.length := (List.getElem?_eq_some.mp h2).1
    have h1' : (config.Logs.take (j + 1))[i]? = some e1 := by
      rw [List.getElem?_take_of_lt (by omega)]
      exact h1
    have h2' : (config.Logs.take (j + 1))[j]? = some e2 := by
      rw [List.getElem?_take_of_lt (by omega)]
      exact h2
    have hnd' : ¬ ((config.Logs.take (j + 1)).map (logIDOf x)).Nodup :=
      not_nodup_of_same_id x _ i j e1 e2 hij h1' h2' hid
    rcases loop_cases x (config.Logs.take (j + 1)) ∅ with ⟨m, hm⟩ | ⟨err, herr⟩
    · exact absurd ((loop_ok_iff x _ ∅ m).mp hm).2.1 hnd'
    · refine ⟨err, ?_, loop_valid_err_collision x _ ∅ err hV herr⟩
      have := loop_append_err x (config.Logs.take (j + 1)) (config.Logs.drop (j + 1)) ∅ err herr
      rw [List.take_append_drop] at this
      exact this

/-- The collision scenario with a valid entry of another log in between: the run fails
with the collision error. -/
theorem AsLogMap_collision_detected_witness :
    ∃ err, AsLogMap exEnv ⟨[exLog, exLog2, exLogCompact]⟩ = (none, some err) ∧
      IsCollisionMsg err :=
  (AsLogMap_collision_detected exEnv ⟨[exLog, exLog2, exLogCompact]⟩ 0 2 exLog exLogCompact
    (by decide) (by decide) (by decide) (by decide)).2 (by decide)

/-- C3, counterexample. The entry `exLog3Sha512` has the hashing strategy `sha512`, an
accepted key and an identifier of its own, yet on `[exLogBadKey, exLog3Sha512]` AsLogMap
stops at the first entry with the verifier error, not the unsupported-strategy error. -/
theorem sha512_not_reported_behind_bad_key :
    exLog3Sha512.HashStrategy ≠ "default" ∧ Accepted exEnv exLog3Sha512 ∧
    logIDOf exEnv exLog3Sha512 ≠ logIDOf exEnv exLogBadKey ∧
    AsLogMap exEnv ⟨[exLogBadKey, exLog3Sha512]⟩
      = (none, some "failed to create signature verifier: malformed verifier id") ∧
    "failed to create signature verifier: malformed verifier id" ≠ errNonDefaultHash := by
  decide

/-- C3, as amended (hash-strategy exclusivity). For every LogConfig that contains an entry
whose HashStrategy is not the literal "default", AsLogMap fails: it returns a nil map and
an error. The error is the unsupported-strategy error ("can't handle non-default hashing
strategies") whenever the entries before that entry all have HashStrategy "default",
accepted keys and pairwise distinct identifiers; nothing is asked of the key or the
identifier of the entry itself. -/
theorem AsLogMap_nondefault_hash_rejected {V H : Type} (x : Externals V H)
    (config : LogConfig) (pre post : List LogInfo) (e : LogInfo)
    (hL : config.Logs = pre ++ e :: post) (hs : e.HashStrategy ≠ "default") :
    (∃ err, AsLogMap x config = (none, some err)) ∧
    ((∀ a ∈ pre, a.HashStrategy = "default" ∧
        (x.NewVerifier a.PublicKeyType a.PublicKey).2 = none) →
      (pre.map fun a => x.ID a.Origin (bytes a.PublicKey)).Nodup →
      AsLogMap x config = (none, some "can't handle non-default hashing strategies")) := by
  constructor
  · rcases loop_cases x config.Logs ∅ with ⟨m, hm⟩ | ⟨err, herr⟩
    · have hval := ((loop_ok_iff x config.Logs ∅ m).mp hm).1 e (by rw [hL]; simp)
      exact absurd hval.1 hs
    · exact ⟨err, herr⟩
  · intro hV hD
    have hpre : AsLogMap.loop x x.DefaultHasher pre ∅ = (some (insertAll x pre ∅), none) :=
      (loop_ok_iff x pre ∅ _).mpr ⟨hV, hD, fun _ _ => Finmap.not_mem_empty, rfl⟩
    unfold AsLogMap
    simp only
    rw [hL, loop_append_ok x pre (e :: post) ∅ _ hpre, loop_cons_hash x _ e post _ hs]
    rfl

/-- The unsupported-strategy scenario behind one valid entry, and in front of an entry
with a malformed key. -/
theorem AsLogMap_nondefault_hash_rejected_witness :
    AsLogMap exEnv ⟨[exLog2, exLogSha512, exLogBadKey]⟩
      = (none, some "can't handle non-default hashing strategies") :=
  (AsLogMap_nondefault_hash_rejected exEnv ⟨[exLog2, exLogSha512, exLogBadKey]⟩ [exLog2]
    [exLogBadKey] exLogSha512 (by decide) (by decide)).2 (by decide) (by decide)

/-- C4 (descriptor assembly and retrievability). Whenever AsLogMap succeeds on a LogConfig,
for every entry `e` of Logs the returned map has, at the key `ID(e.Origin,
[]byte(e.PublicKey))`, a descriptor whose SigV is the verifier the constructor returns for
`(e.PublicKeyType, e.PublicKey)`, whose Origin is `e.Origin`, whose Hasher is the default
hasher and whose UseCompact is `e.UseCompact`; and every key of the map is the identifier
of an entry. -/
theorem AsLogMap_descriptors {V H : Type} (x : Externals V H) (config : LogConfig)
    (m : LogMap V H) (h : AsLogMap x config = (some m, none)) :
    (∀ e ∈ config.Logs,
      m.lookup (x.ID e.Origin (bytes e.PublicKey))
        = some (witness.LogInfo.mk (x.NewVerifier e.PublicKeyType e.PublicKey).1 e.Origin
            x.DefaultHasher e.UseCompact)) ∧
    (∀ k, k ∈ m → ∃ e ∈ config.Logs, k = x.ID e.Origin (bytes e.PublicKey)) := by
  obtain ⟨_, hD, hm⟩ := AsLogMap_ok_inv x config.Logs m h
  subst hm
  constructor
  · intro e he
    exact (lookup_insertAll x config.Logs ∅ _ _ hD).mpr (Or.inl ⟨e, he, rfl, rfl⟩)
  · intro k hk
    rcases (mem_insertAll x config.Logs ∅ k).mp hk with h0 | ⟨e, he, hid⟩
    · exact absurd h0 Finmap.not_mem_empty
    · exact ⟨e, he, hid.symm⟩

/-- The two-distinct-logs scenario: the run succeeds and the descriptor of the second
log is retrievable by its identifier. -/
theorem AsLogMap_descriptors_witness :
    AsLogMap exEnv ⟨[exLog, exLog2]⟩ = (some (insertAll exEnv [exLog, exLog2] ∅), none) ∧
    (insertAll exEnv [exLog, exLog2] ∅).lookup (exEnv.ID "example.org/other"
        (bytes "example.org/other+00ff00ff+BAUG"))
      = some (witness.LogInfo.mk "example.org/other+00ff00ff+BAUG" "example.org/other"
          "rfc6962-sha256" true) :=
  ⟨by decide,
    (AsLogMap_descriptors exEnv ⟨[exLog, exLog2]⟩ (insertAll exEnv [exLog, exLog2] ∅)
      (by decide)).1 exLog2 (by decide)⟩

/-- C5 (identifier determinism). For every LogInfo `e` with HashStrategy "default" and a
key the verifier constructor accepts, AsLogMap on the LogConfig containing only `e`
produces a map with exactly one key, `ID(e.Origin, []byte(e.PublicKey))`. The key depends
on Origin and PublicKey only: any entry with the same Origin and PublicKey on which
AsLogMap succeeds, whatever its PublicKeyType, HashStrategy and UseCompact, gives a map
with the same key set. -/
theorem AsLogMap_single_key {V H : Type} (x : Externals V H) (e : LogInfo)
    (hs : e.HashStrategy = "default")
    (hv : (x.NewVerifier e.PublicKeyType e.PublicKey).2 = none) :
    ∃ m, AsLogMap x ⟨[e]⟩ = (some m, none) ∧
      m.keys = {x.ID e.Origin (bytes e.PublicKey)} ∧
      ∀ (e' : LogInfo) (m' : LogMap V H), e'.Origin = e.Origin → e'.PublicKey = e.PublicKey →
        AsLogMap x ⟨[e']⟩ = (some m', none) → m'.keys = m.keys := by
  have hkeys : ∀ a : LogInfo, (insertAll x [a] ∅).keys = {x.ID a.Origin (bytes a.PublicKey)} := by
    intro a
    rw [insertAll_cons, insertAll_nil, keys_insert_eq, Finmap.keys_empty]
    rfl
  refine ⟨insertAll x [e] ∅, ?_, hkeys e, ?_⟩
  · exact AsLogMap_ok_of_valid x [e] (by simpa using ⟨hs, hv⟩) (by simp)
  · intro e' m' hO hP h'
    obtain ⟨_, _, hm'⟩ := AsLogMap_ok_inv x [e'] m' h'
    rw [hm', hkeys e', hkeys e, hO, hP]

/-- The single-valid-log scenario: the run succeeds and the sole key of the map is the
identifier of the entry. -/
theorem AsLogMap_single_key_witness :
    ∃ m, AsLogMap exEnv ⟨[exLog]⟩ = (some m, none) ∧
      m.keys = {exEnv.ID "example.com/log" (bytes "example.com/log+abcd1234+AQID")} :=
  (AsLogMap_single_key exEnv exLog (by decide) (by decide)).imp
    fun _ hm => ⟨hm.1, hm.2.1⟩

/-- The map of descriptors of a list with pairwise distinct identifiers does not depend
on the order of the list. -/
theorem insertAll_perm {V H : Type} (x : Externals V H) (L L' : List LogInfo)
    (hp : L'.Perm L) (hD : (L.map (logIDOf x)).Nodup) :
    insertAll x L' (∅ : LogMap V H) = insertAll x L ∅ := by
  have hD' : (L'.map (logIDOf x)).Nodup := ((hp.map (logIDOf x)).nodup_iff).mpr hD
  apply Finmap.ext_lookup
  intro k
  apply Option.ext
  intro d
  rw [Option.mem_def, Option.mem_def, lookup_insertAll x L' ∅ k d hD',
    lookup_insertAll x L ∅ k d hD]
  simp only [Finmap.lookup_empty, and_false, or_false, reduceCtorEq]
  constructor
  · rintro ⟨e, he, h⟩
    exact ⟨e, hp.mem_iff.mp he, h⟩
  · rintro ⟨e, he, h⟩
    exact ⟨e, hp.mem_iff.mpr he, h⟩

/-- C6 (order independence of success). For every LogConfig `c` on which AsLogMap succeeds
and every permutation `c'` of `c.Logs`, AsLogMap on `c'` also succeeds and returns the
same map: the same key set and the same descriptor at each key. -/
theorem AsLogMap_perm {V H : Type} (x : Externals V H) (c c' : LogConfig) (m : LogMap V H)
    (h : AsLogMap x c = (some m, none)) (hp : c'.Logs.Perm c.Logs) :
    AsLogMap x c' = (some m, none) := by
  obtain ⟨hV, hD, hm⟩ := AsLogMap_ok_inv x c.Logs m h
  have hV' : ∀ e ∈ c'.Logs, Valid x e := fun e he => hV e (hp.mem_iff.mp he)
  have hD' : (c'.Logs.map (logIDOf x)).Nodup := ((hp.map (logIDOf x)).nodup_iff).mpr hD
  rw [hm, ← insertAll_perm x c.Logs c'.Logs hp hD]
  exact AsLogMap_ok_of_valid x c'.Logs hV' hD'

/-- The two-distinct-logs scenario in the other order yields the same map. -/
theorem AsLogMap_perm_witness :
    AsLogMap exEnv ⟨[exLog2, exLog]⟩ = (some (insertAll exEnv [exLog, exLog2] ∅), none) :=
  AsLogMap_perm exEnv ⟨[exLog, exLog2]⟩ ⟨[exLog2, exLog]⟩ (insertAll exEnv [exLog, exLog2] ∅)
    (by decide) (List.Perm.swap exLog exLog2 [])

/-- C7 (strict duplicate policy). For every pair of entries `e1`, `e2` with the same Origin
and the same PublicKey, both with HashStrategy "default" and both accepted by the verifier
constructor, AsLogMap on the LogConfig `[e1, e2]` fails with the collision error, whose
message names the descriptor of `e1` as the old one and that of `e2` as the new one. The
other fields may differ or not: the entries may be identical in every field. -/
theorem AsLogMap_strict_duplicates {V H : Type} (x : Externals V H) (e1 e2 : LogInfo)
    (hO : e1.Origin = e2.Origin) (hP : e1.PublicKey = e2.PublicKey)
    (hs1 : e1.HashStrategy = "default") (hs2 : e2.HashStrategy = "default")
    (hv1 : (x.NewVerifier e1.PublicKeyType e1.PublicKey).2 = none)
    (hv2 : (x.NewVerifier e2.PublicKeyType e2.PublicKey).2 = none) :
    AsLogMap x ⟨[e1, e2]⟩
      = (none, some (errColliding x (x.ID e2.Origin (bytes e2.PublicKey))
          (descriptorOf x e1) (descriptorOf x e2))) ∧
    IsCollisionMsg (errColliding x (x.ID e2.Origin (bytes e2.PublicKey))
          (descriptorOf x e1) (descriptorOf x e2)) := by
  refine ⟨?_, collision_errColliding x _ _ _⟩
  have hid : logIDOf x e1 = logIDOf x e2 := by
    unfold logIDOf
    rw [hO, hP]
  unfold AsLogMap
  simp only
  rw [loop_cons_insert x e1 [e2] ∅ hs1 hv1 (Finmap.lookup_empty _)]
  have hl : (Finmap.insert (logIDOf x e1) (descriptorOf x e1) (∅ : LogMap V H)).lookup
      (logIDOf x e2) = some (descriptorOf x e1) := by
    rw [← hid, Finmap.lookup_insert]
  rw [loop_cons_collide x e2 [] _ hs2 hv2 _ hl]
  rfl

/-- The collision scenario: same Origin and PublicKey, UseCompact false then true. -/
theorem AsLogMap_strict_duplicates_witness :
    AsLogMap exEnv ⟨[exLog, exLogCompact]⟩
      = (none, some (errColliding exEnv (exEnv.ID exLogCompact.Origin
          (bytes exLogCompact.PublicKey)) (descriptorOf exEnv exLog)
          (descriptorOf exEnv exLogCompact))) ∧
    IsCollisionMsg (errColliding exEnv (exEnv.ID exLogCompact.Origin
          (bytes exLogCompact.PublicKey)) (descriptorOf exEnv exLog)
          (descriptorOf exEnv exLogCompact)) :=
  AsLogMap_strict_duplicates exEnv exLog exLogCompact (by decide) (by decide) (by decide)
    (by decide) (by decide) (by decide)

/-- C8 (collision diagnostic content and order). Whenever AsLogMap fails with the collision
error, there is an entry `e` of Logs, with identifier `id`, at which the run stopped: the
entries before `e` were compiled into a map that holds, under `id`, the descriptor `old`
built from an earlier entry, and the error message is "colliding log configs found for
key ", then the hexadecimal encoding of `id`, then ": ", then the dump of `old`, then
" and ", then the dump of the descriptor newly built from `e`. -/
theorem AsLogMap_collision_message {V H : Type} (x : Externals V H) (config : LogConfig)
    (msg : String) (h : AsLogMap x config = (none, some msg)) (hc : IsCollisionMsg msg) :
    ∃ pre e post m old,
      config.Logs = pre ++ e :: post ∧
      AsLogMap x ⟨pre⟩ = (some m, none) ∧
      m.lookup (x.ID e.Origin (bytes e.PublicKey)) = some old ∧
      (∃ e' ∈ pre, x.ID e'.Origin (bytes e'.PublicKey) = x.ID e.Origin (bytes e.PublicKey) ∧
        old = witness.LogInfo.mk (x.NewVerifier e'.PublicKeyType e'.PublicKey).1 e'.Origin
          x.DefaultHasher e'.UseCompact) ∧
      msg = "colliding log configs found for key " ++ fmtHex (x.ID e.Origin (bytes e.PublicKey))
        ++ ": " ++ x.dump old ++ " and "
        ++ x.dump (witness.LogInfo.mk (x.NewVerifier e.PublicKeyType e.PublicKey).1 e.Origin
          x.DefaultHasher e.UseCompact) := by
  unfold AsLogMap at h
  obtain ⟨pre, e, post, m, hL, hpre, hcase⟩ := loop_err_split x config.Logs ∅ msg h
  rcases hcase with ⟨_, hmsg⟩ | ⟨_, err, _, hmsg⟩ | ⟨_, old, hl, hmsg⟩
  · rw [hmsg] at hc
    exact absurd hc not_collision_errNonDefaultHash
  · rw [hmsg] at hc
    exact absurd hc (not_collision_errVerifier err)
  · refine ⟨pre, e, post, m, old, hL, hpre, hl, ?_, hmsg⟩
    obtain ⟨_, hD, _, hm⟩ := (loop_ok_iff x pre ∅ m).mp hpre
    rw [hm] at hl
    rcases (lookup_insertAll x pre ∅ _ old hD).mp hl with ⟨e', he', hid, hd⟩ | ⟨_, h0⟩
    · exact ⟨e', he', hid, hd.symm⟩
    · simp at h0

set_option maxRecDepth 20000 in
/-- The collision scenario: the message, with the descriptor of the first entry (UseCompact
false) before the one of the second (UseCompact true). -/
theorem AsLogMap_collision_message_witness :
    ∃ pre e post m old,
      [exLog, exLogCompact] = pre ++ e :: post ∧
      AsLogMap exEnv ⟨pre⟩ = (some m, none) ∧
      m.lookup (exEnv.ID e.Origin (bytes e.PublicKey)) = some old ∧
      (∃ e' ∈ pre,
        exEnv.ID e'.Origin (bytes e'.PublicKey) = exEnv.ID e.Origin (bytes e.PublicKey) ∧
        old = witness.LogInfo.mk (exEnv.NewVerifier e'.PublicKeyType e'.PublicKey).1 e'.Origin
          exEnv.DefaultHasher e'.UseCompact) ∧
      errColliding exEnv (logIDOf exEnv exLog) (descriptorOf exEnv exLog)
          (descriptorOf exEnv exLogCompact)
        = "colliding log configs found for key "
          ++ fmtHex (exEnv.ID e.Origin (bytes e.PublicKey))
          ++ ": " ++ exEnv.dump old ++ " and "
          ++ exEnv.dump (witness.LogInfo.mk (exEnv.NewVerifier e.PublicKeyType e.PublicKey).1
            e.Origin exEnv.DefaultHasher e.UseCompact) :=
  AsLogMap_collision_message exEnv ⟨[exLog, exLogCompact]⟩
    (errColliding exEnv (logIDOf exEnv exLog) (descriptorOf exEnv exLog)
      (descriptorOf exEnv exLogCompact)) (by decide) (by decide)

/-- C9 (verifier-failure wrapping). For every LogConfig whose first failing entry `e` has
HashStrategy "default" and for which the verifier constructor returns an error with
message `err` on `(e.PublicKeyType, e.PublicKey)`, AsLogMap returns a nil map and an error
whose message is exactly "failed to create signature verifier: " followed by `err`. That
`e` is the first failing entry is stated as: AsLogMap succeeds on the entries before it. -/
theorem AsLogMap_verifier_error_wrapped {V H : Type} (x : Externals V H) (config : LogConfig)
    (pre post : List LogInfo) (e : LogInfo) (m : LogMap V H) (err : String)
    (hL : config.Logs = pre ++ e :: post) (hpre : AsLogMap x ⟨pre⟩ = (some m, none))
    (hs : e.HashStrategy = "default")
    (hv : (x.NewVerifier e.PublicKeyType e.PublicKey).2 = some err) :
    AsLogMap x config = (none, some ("failed to create signature verifier: " ++ err)) := by
  unfold AsLogMap at hpre ⊢
  simp only at hpre ⊢
  rw [hL, loop_append_ok x pre (e :: post) ∅ m hpre, loop_cons_verifier x _ e post m hs err hv]
  rfl

/-- The bad-key-material scenario behind one valid entry. -/
theorem AsLogMap_verifier_error_wrapped_witness :
    AsLogMap exEnv ⟨[exLog, exLogBadKey, exLog2]⟩
      = (none, some ("failed to create signature verifier: " ++ "malformed verifier id")) :=
  AsLogMap_verifier_error_wrapped exEnv ⟨[exLog, exLogBadKey, exLog2]⟩ [exLog] [exLog2]
    exLogBadKey (insertAll exEnv [exLog] ∅) "malformed verifier id" (by decide) (by decide)
    (by decide) (by decide)

/-- C10, counterexample. AsLogMap rejects the entry `exLogSha512` for its hashing strategy
`sha512`, and the message of the error does not contain `sha512`; the entry `exLogSha3`,
which differs in the strategy only, is rejected with the very same message. -/
theorem nondefault_hash_message_omits_value :
    exLogSha512.HashStrategy = "sha512" ∧
    AsLogMap exEnv ⟨[exLogSha512]⟩
      = (none, some "can't handle non-default hashing strategies") ∧
    ¬ ("sha512".data <:+: "can't handle non-default hashing strategies".data) ∧
    exLogSha3.HashStrategy = "sha3" ∧
    (AsLogMap exEnv ⟨[exLogSha3]⟩).2 = (AsLogMap exEnv ⟨[exLogSha512]⟩).2 := by
  decide

/-- C10, as amended (unsupported-strategy message). Whenever AsLogMap fails with the
unsupported-strategy error because of an entry `e` with `e.HashStrategy` other than
"default" (the entries before `e` having been compiled without error), the error message
is the fixed text "can't handle non-default hashing strategies", which does not depend on
`e.HashStrategy`: a second input that differs only in the entry at that position, that one
also having a non-default strategy, yields the same message. -/
theorem AsLogMap_nondefault_hash_message {V H : Type} (x : Externals V H)
    (pre post : List LogInfo) (e e' : LogInfo) (m : LogMap V H)
    (hpre : AsLogMap x ⟨pre⟩ = (some m, none))
    (hs : e.HashStrategy ≠ "default") (hs' : e'.HashStrategy ≠ "default") :
    AsLogMap x ⟨pre ++ e :: post⟩
      = (none, some "can't handle non-default hashing strategies") ∧
    AsLogMap x ⟨pre ++ e' :: post⟩ = AsLogMap x ⟨pre ++ e :: post⟩ := by
  have key : ∀ a : LogInfo, a.HashStrategy ≠ "default" →
      AsLogMap x ⟨pre ++ a :: post⟩
        = (none, some "can't handle non-default hashing strategies") := by
    intro a ha
    unfold AsLogMap at hpre ⊢
    simp only at hpre ⊢
    rw [loop_append_ok x pre (a :: post) ∅ m hpre, loop_cons_hash x _ a post m ha]
    rfl
  exact ⟨key e hs, by rw [key e hs, key e' hs']⟩

/-- The unsupported-strategy scenario with `sha512` and with `sha3`, behind one valid
entry: the same result. -/
theorem AsLogMap_nondefault_hash_message_witness :
    AsLogMap exEnv ⟨[exLog2] ++ exLogSha512 :: []⟩
      = (none, some "can't handle non-default hashing strategies") ∧
    AsLogMap exEnv ⟨[exLog2] ++ exLogSha3 :: []⟩
      = AsLogMap exEnv ⟨[exLog2] ++ exLogSha512 :: []⟩ :=
  AsLogMap_nondefault_hash_message exEnv [exLog2] [] exLogSha512 exLogSha3
    (insertAll exEnv [exLog2] ∅) (by decide) (by decide) (by decide)

/-- C11 (all-or-nothing). For every LogConfig, AsLogMap returns either a non-nil map with a
nil error or a nil map with a non-nil error; so whenever the error is not nil the map is
nil, also when the failure occurs after entries were already stored in the map under
construction. -/
theorem AsLogMap_all_or_nothing {V H : Type} (x : Externals V H) (config : LogConfig) :
    ((∃ m, AsLogMap x config = (some m, none)) ∨
      (∃ err, AsLogMap x config = (none, some err))) ∧
    ((AsLogMap x config).2 ≠ none → (AsLogMap x config).1 = none) := by
  have h : (∃ m, AsLogMap x config = (some m, none)) ∨
      (∃ err, AsLogMap x config = (none, some err)) := loop_cases x config.Logs ∅
  refine ⟨h, ?_⟩
  rcases h with ⟨m, hm⟩ | ⟨err, herr⟩
  · rw [hm]
    intro hne
    exact absurd rfl hne
  · rw [herr]
    intro _
    rfl

/-- C12 (hasher singleton). Whenever AsLogMap succeeds, every descriptor in the returned map
has the same Hasher, namely the default hasher: the Hasher of a descriptor does not depend
on the key it is stored under nor on the entry it was built from. -/
theorem AsLogMap_hasher_singleton {V H : Type} (x : Externals V H) (config : LogConfig)
    (m : LogMap V H) (h : AsLogMap x config = (some m, none)) :
    ∀ (k : String) (d : witness.LogInfo V H), m.lookup k = some d →
      d.Hasher = x.DefaultHasher := by
  obtain ⟨_, hD, hm⟩ := AsLogMap_ok_inv x config.Logs m h
  subst hm
  intro k d hk
  rcases (lookup_insertAll x config.Logs ∅ k d hD).mp hk with ⟨e, _, _, hd⟩ | ⟨_, h0⟩
  · rw [← hd]
    rfl
  · simp at h0

/-- The two-distinct-logs scenario: the descriptor stored for the second log has the
default hasher. -/
theorem AsLogMap_hasher_singleton_witness :
    AsLogMap exEnv ⟨[exLog, exLog2]⟩ = (some (insertAll exEnv [exLog, exLog2] ∅), none) ∧
    (insertAll exEnv [exLog, exLog2] ∅).lookup (logIDOf exEnv exLog2)
      = some (witness.LogInfo.mk "example.org/other+00ff00ff+BAUG" "example.org/other"
          "rfc6962-sha256" true) ∧
    (witness.LogInfo.mk "example.org/other+00ff00ff+BAUG" "example.org/other"
      "rfc6962-sha256" true : witness.LogInfo String String).Hasher = exEnv.DefaultHasher :=
  ⟨by decide, by decide,
    AsLogMap_hasher_singleton exEnv ⟨[exLog, exLog2]⟩ (insertAll exEnv [exLog, exLog2] ∅)
      (by decide) (logIDOf exEnv exLog2) _ (by decide)⟩

/-- C13 (empty container). AsLogMap on a LogConfig with no entries returns an empty map,
which is not nil, and a nil error. A nil and an empty `Logs` slice are the same list. -/
theorem AsLogMap_empty {V H : Type} (x : Externals V H) :
    AsLogMap x ⟨[]⟩ = (some ∅, none) ∧
    ∀ m, (AsLogMap x ⟨[]⟩).1 = some m → m.len = 0 := by
  refine ⟨rfl, ?_⟩
  intro m hm
  have : m = ∅ := (Option.some.inj hm).symm
  rw [this]
  exact len_empty

/-- C14 (first failure aborts). For every list of entries `L` on which AsLogMap fails with
the error `E` and every list of entries `S`, AsLogMap on `L` followed by `S` fails with the
same error `E`. Within the first entry that fails the checks run in the order
hash-strategy gate, verifier construction, collision detection: an entry with a
non-default HashStrategy is reported with the unsupported-strategy error whatever its key
and identifier are, and an entry with the default strategy whose key the verifier
constructor rejects is reported with the verifier error whatever its identifier is. -/
theorem AsLogMap_first_failure_aborts {V H : Type} (x : Externals V H) (L S : List LogInfo)
    (E : String) (h : AsLogMap x ⟨L⟩ = (none, some E)) :
    AsLogMap x ⟨L ++ S⟩ = (none, some E) ∧
    (∀ (pre post : List LogInfo) (e : LogInfo) (m : LogMap V H),
      AsLogMap x ⟨pre⟩ = (some m, none) → e.HashStrategy ≠ "default" →
      AsLogMap x ⟨pre ++ e :: post⟩
        = (none, some "can't handle non-default hashing strategies")) ∧
    (∀ (pre post : List LogInfo) (e : LogInfo) (m : LogMap V H) (err : String),
      AsLogMap x ⟨pre⟩ = (some m, none) → e.HashStrategy = "default" →
      (x.NewVerifier e.PublicKeyType e.PublicKey).2 = some err →
      AsLogMap x ⟨pre ++ e :: post⟩
        = (none, some ("failed to create signature verifier: " ++ err))) := by
  refine ⟨loop_append_err x L S ∅ E h, ?_, ?_⟩
  · intro pre post e m hpre hs
    unfold AsLogMap at hpre ⊢
    simp only at hpre ⊢
    rw [loop_append_ok x pre (e :: post) ∅ m hpre, loop_cons_hash x _ e post m hs]
    rfl
  · intro pre post e m err hpre hs hv
    unfold AsLogMap at hpre ⊢
    simp only at hpre ⊢
    rw [loop_append_ok x pre (e :: post) ∅ m hpre, loop_cons_verifier x _ e post m hs err hv]
    rfl

/-- An entry with the strategy `sha512` and an empty key, behind one valid entry: the run
stops there with the unsupported-strategy error, and entries appended to the list do not
change the result. -/
theorem AsLogMap_first_failure_aborts_witness :
    (exEnv.NewVerifier exLogSha512BadKey.PublicKeyType exLogSha512BadKey.PublicKey).2
      = some "malformed verifier id" ∧
    AsLogMap exEnv ⟨[exLog, exLogSha512BadKey]⟩
      = (none, some "can't handle non-default hashing strategies") ∧
    AsLogMap exEnv ⟨[exLog, exLogSha512BadKey] ++ [exLog2, exLogCompact]⟩
      = (none, some "can't handle non-default hashing strategies") :=
  ⟨by decide, by decide,
    (AsLogMap_first_failure_aborts exEnv [exLog, exLogSha512BadKey] [exLog2, exLogCompact]
      "can't handle non-default hashing strategies" (by decide)).1⟩

/-- C16 (exact success condition). For every LogConfig, AsLogMap returns a nil error if and
only if every entry has HashStrategy equal to "default", the verifier constructor accepts
the key of every entry, and the identifiers `ID(Origin, []byte(PublicKey))` of the entries
are pairwise distinct across positions. -/
theorem AsLogMap_ok_iff {V H : Type} (x : Externals V H) (config : LogConfig) :
    (AsLogMap x config).2 = none ↔
      ((∀ e ∈ config.Logs, e.HashStrategy = "default") ∧
       (∀ e ∈ config.Logs, (x.NewVerifier e.PublicKeyType e.PublicKey).2 = none) ∧
       (config.Logs.map fun e => x.ID e.Origin (bytes e.PublicKey)).Nodup) := by
  constructor
  · intro h
    rcases loop_cases x config.Logs ∅ with ⟨m, hm⟩ | ⟨err, herr⟩
    · obtain ⟨hV, hD, _⟩ := AsLogMap_ok_inv x config.Logs m hm
      exact ⟨fun e he => (hV e he).1, fun e he => (hV e he).2, hD⟩
    · have herr' : AsLogMap x config = (none, some err) := herr
      rw [herr'] at h
      simp at h
  · rintro ⟨hS, hK, hD⟩
    have hok : AsLogMap x config = (some (insertAll x config.Logs ∅), none) :=
      AsLogMap_ok_of_valid x config.Logs (fun e he => ⟨hS e he, hK e he⟩) hD
    rw [hok]

/-- C17 (removing entries preserves success). For every LogConfig `c` on which AsLogMap
succeeds with the map `M` and every sublist `L'` of `c.Logs`, AsLogMap on `L'` succeeds and
returns the restriction of `M` to the identifiers of the entries in `L'`: under such an
identifier it holds what `M` holds, and it has no other key. -/
theorem AsLogMap_sublist {V H : Type} (x : Externals V H) (c : LogConfig) (M : LogMap V H)
    (L' : List LogInfo) (h : AsLogMap x c = (some M, none)) (hsub : L'.Sublist c.Logs) :
    ∃ M', AsLogMap x ⟨L'⟩ = (some M', none) ∧
      ∀ k, M'.lookup k
        = if k ∈ L'.map (fun e => x.ID e.Origin (bytes e.PublicKey)) then M.lookup k
          else none := by
  obtain ⟨hV, hD, hM⟩ := AsLogMap_ok_inv x c.Logs M h
  have hV' : ∀ e ∈ L', Valid x e := fun e he => hV e (hsub.subset he)
  have hD' : (L'.map (logIDOf x)).Nodup := (hsub.map (logIDOf x)).nodup hD
  refine ⟨insertAll x L' ∅, AsLogMap_ok_of_valid x L' hV' hD', ?_⟩
  intro k
  by_cases hk : k ∈ L'.map (fun e => x.ID e.Origin (bytes e.PublicKey))
  · rw [if_pos hk]
    obtain ⟨e, he, hid⟩ := List.mem_map.mp hk
    have h1 : (insertAll x L' (∅ : LogMap V H)).lookup k = some (descriptorOf x e) :=
      (lookup_insertAll x L' ∅ k _ hD').mpr (Or.inl ⟨e, he, hid, rfl⟩)
    have h2 : M.lookup k = some (descriptorOf x e) := by
      rw [hM]
      exact (lookup_insertAll x c.Logs ∅ k _ hD).mpr (Or.inl ⟨e, hsub.subset he, hid, rfl⟩)
    rw [h1, h2]
  · rw [if_neg hk, Finmap.lookup_eq_none, mem_insertAll]
    rintro (h0 | ⟨e, he, hid⟩)
    · exact absurd h0 Finmap.not_mem_empty
    · exact hk (List.mem_map.mpr ⟨e, he, hid⟩)

/-- The two-distinct-logs scenario with the first entry removed: the run succeeds and the
map holds the descriptor of the second log only. -/
theorem AsLogMap_sublist_witness :
    ∃ M', AsLogMap exEnv ⟨[exLog2]⟩ = (some M', none) ∧
      ∀ k, M'.lookup k
        = if k ∈ [exLog2].map (fun e => exEnv.ID e.Origin (bytes e.PublicKey)) then
            (insertAll exEnv [exLog, exLog2] ∅).lookup k
          else none :=
  AsLogMap_sublist exEnv ⟨[exLog, exLog2]⟩ (insertAll exEnv [exLog, exLog2] ∅) [exLog2]
    (by decide) (List.Sublist.cons exLog (List.Sublist.refl [exLog2]))

end omniwitness
